import Mathlib

/-!
Verification of the multicast-delegate container (`Delegate.h`, `IsCallable.h`).

Shallow embedding conventions:
* A type-erased `std::function<R(Args...)>` wrapper is modelled by `StdFunction`:
  its behaviour is a function from the argument tuple `α` and an external world
  state `σ` to either a raised error (the error value together with the world
  state at the moment of the throw, so partial side effects are observable) or
  a new world state and a return value `β`.  The `target` field models
  `std::function::target<c_function_type>()`: `some p` when the wrapper was
  constructed from a plain function pointer (whose identity is the number `p`),
  `none` for closures, bound expressions and function objects.
* The delegate itself is a structure holding `m_invokationList`, mirroring the
  single data member of the C++ class.
* C++ function-pointer identity is modelled by `Nat`.
-/

/-- Models one type-erased callable stored in the invocation list.  `run`
is the call behaviour (state-passing, possibly raising an error of type `ε`
with the state at the throw); `target` models
`std::function::target<c_function_type>()`: the recoverable plain function
pointer, when the wrapper was built from one. -/
structure StdFunction (σ ε α β : Type) where
  run : α → σ → Except (ε × σ) (σ × β)
  target : Option Nat

/-- The delegate container: its single data member is the invocation list
`m_invokationList` (`std::vector<std_function_type>` in the source). -/
structure Delegate (σ ε α β : Type) where
  m_invokationList : List (StdFunction σ ε α β)

/-- The runtime errors that can escape `Delegate::invoke`: the container's own
`DelegateInvocationException` (with its message), or an error raised by one of
the invoked wrappers. -/
inductive DelegateError (ε : Type) where
  | invocationException (msg : String)
  | wrapperError (e : ε)

/-- `Delegate::is_null`: true iff the invocation list is empty. -/
def Delegate.is_null (d : Delegate σ ε α β) : Bool :=
  d.m_invokationList.isEmpty

/-- `Delegate::add(function_type)`: `m_invokationList.push_back(func)`. -/
def Delegate.add (d : Delegate σ ε α β) (f : StdFunction σ ε α β) :
    Delegate σ ε α β :=
  ⟨d.m_invokationList ++ [f]⟩

/-- `Delegate::add(const _delegate&)`: push_back every wrapper of `other`'s
invocation list, in order (the source's range-for of push_backs, as a fold). -/
def Delegate.addDelegate (d other : Delegate σ ε α β) : Delegate σ ε α β :=
  ⟨other.m_invokationList.foldl (fun acc f => acc ++ [f]) d.m_invokationList⟩

/-- `Delegate::clear`: empties the invocation list. -/
def Delegate.clear (_d : Delegate σ ε α β) : Delegate σ ε α β :=
  ⟨[]⟩

/-- `Delegate::operator+`: `_delegate result; result.add(*this).add(other);`
— a fresh delegate receiving the left list then the right list. -/
def Delegate.combine (d other : Delegate σ ε α β) : Delegate σ ε α β :=
  ((⟨[]⟩ : Delegate σ ε α β).addDelegate d).addDelegate other

/-- The backward scan of `Delegate::remove`: walk the invocation list from the
most-recently-added entry backward (here: give the tail, i.e. the
later-inserted entries, priority), looking for a wrapper whose recoverable
function pointer equals `p`; `some l` is the list with that single occurrence
erased, `none` means no match. -/
def removeLastMatch (p : Nat) :
    List (StdFunction σ ε α β) → Option (List (StdFunction σ ε α β))
  | [] => none
  | w :: ws =>
    match removeLastMatch p ws with
    | some ws' => some (w :: ws')
    | none => if w.target = some p then some ws else none

/-- `Delegate::remove(function_type)`: early-return on an empty list, else
erase the first match of the backward scan; no match leaves the list as is. -/
def Delegate.remove (d : Delegate σ ε α β) (p : Nat) : Delegate σ ε α β :=
  if d.is_null then d
  else
    match removeLastMatch p d.m_invokationList with
    | some l => ⟨l⟩
    | none => d

/-- The invocation loop of `Delegate::invoke` on a non-empty list, split as
head wrapper + remaining wrappers: every wrapper but the last is called and
its result discarded; the last wrapper's call produces the returned value.
A wrapper's error stops the loop and propagates. -/
def invokeFrom (a : α) :
    StdFunction σ ε α β → List (StdFunction σ ε α β) → σ →
      Except (DelegateError ε × σ) (σ × β)
  | w, [], s =>
    match w.run a s with
    | .ok r => .ok r
    | .error (e, s') => .error (.wrapperError e, s')
  | w, w' :: ws, s =>
    match w.run a s with
    | .ok (s', _) => invokeFrom a w' ws s'
    | .error (e, s') => .error (.wrapperError e, s')

/-- `Delegate::invoke`: throws `DelegateInvocationException` on an empty
invocation list (before any call, so the world state is returned untouched);
otherwise runs the loop `invokeFrom` over the whole list. -/
def Delegate.invoke (d : Delegate σ ε α β) (a : α) (s : σ) :
    Except (DelegateError ε × σ) (σ × β) :=
  match d.m_invokationList with
  | [] => .error (.invocationException "Failed to invoke delegate", s)
  | w :: ws => invokeFrom a w ws s

/-- The `invoke` member function seen as a method with mutable access to
`this`: the body of the source never writes `m_invokationList`, so the
method's effect on the object is the identity; the pair returns the
(unchanged) object together with the call's outcome. -/
def Delegate.invokeMethod (d : Delegate σ ε α β) (a : α) (s : σ) :
    Delegate σ ε α β × Except (DelegateError ε × σ) (σ × β) :=
  (d, d.invoke a s)

/-- `Delegate::operator=(function_type&)`: `m_invokationList.clear();`
then `m_invokationList.push_back(func);` — the previous list is discarded. -/
def Delegate.assignFunction (d : Delegate σ ε α β)
    (f : StdFunction σ ε α β) : Delegate σ ε α β :=
  ⟨d.clear.m_invokationList ++ [f]⟩

/-- A wrapper built from a plain function pointer with identity `p` and pure
behaviour `f`: `target<c_function_type>()` recovers `p`. -/
def StdFunction.ofFnPtr (p : Nat) (f : α → β) : StdFunction σ ε α β :=
  ⟨fun a s => .ok (s, f a), some p⟩

/-- An instrumented wrapper used to observe invocation order: calling it with
argument `a` appends the event `(id, a)` to the trace state and returns `f a`.
It is not of plain-function-pointer origin (`target = none`). -/
def traceFn (id : Nat) (f : α → β) : StdFunction (List (Nat × α)) ε α β :=
  ⟨fun a s => .ok (s ++ [(id, a)], f a), none⟩

/-- A wrapper whose call raises the error `e` without touching the state. -/
def throwFn (e : ε) : StdFunction σ ε α β :=
  ⟨fun _ s => .error (e, s), none⟩

/-- A delegate whose invocation list is the instrumented wrappers of `l`. -/
def traceDelegate (l : List (Nat × (α → β))) :
    Delegate (List (Nat × α)) ε α β :=
  ⟨l.map fun p => traceFn p.1 p.2⟩

lemma invokeFrom_traceFn {α β ε : Type} (i : Nat) (f : α → β)
    (l : List (Nat × (α → β))) (a : α) (s : List (Nat × α)) :
    invokeFrom (ε := ε) a (traceFn i f) (l.map fun p => traceFn p.1 p.2) s
      = .ok (s ++ (i, a) :: l.map (fun p => (p.1, a)),
             (l.getLastD (i, f)).2 a) := by
  induction l generalizing i f s with
  | nil => simp [invokeFrom, traceFn]
  | cons q l ih =>
    have step : invokeFrom (ε := ε) a (traceFn i f)
        ((q :: l).map fun p => traceFn p.1 p.2) s
          = invokeFrom a (traceFn q.1 q.2) (l.map fun p => traceFn p.1 p.2)
              (s ++ [(i, a)]) := rfl
    rw [step, ih q.1 q.2, List.getLastD_cons]
    simp

lemma addDelegate_eq_append {σ ε α β : Type} (d other : Delegate σ ε α β) :
    (d.addDelegate other).m_invokationList
      = d.m_invokationList ++ other.m_invokationList := by
  show List.foldl (fun acc f => acc ++ [f]) d.m_invokationList
      other.m_invokationList = _
  generalize d.m_invokationList = init
  induction other.m_invokationList generalizing init with
  | nil => simp
  | cons w ws ih => simp [List.foldl_cons, ih]

lemma removeLastMatch_of_no_match {σ ε α β : Type} (p : Nat)
    (l : List (StdFunction σ ε α β)) (h : ∀ w ∈ l, w.target ≠ some p) :
    removeLastMatch p l = none := by
  induction l with
  | nil => rfl
  | cons w ws ih =>
    have hw : w.target ≠ some p := h w (List.mem_cons_self w ws)
    have hws : removeLastMatch p ws = none :=
      ih fun x hx => h x (List.mem_cons_of_mem w hx)
    simp [removeLastMatch, hws, hw]

lemma removeLastMatch_append_some {σ ε α β : Type} (p : Nat)
    (xs l l' : List (StdFunction σ ε α β))
    (h : removeLastMatch p l = some l') :
    removeLastMatch p (xs ++ l) = some (xs ++ l') := by
  induction xs with
  | nil => simpa using h
  | cons x xs ih => simp [removeLastMatch, ih]

lemma removeLastMatch_cons_match {σ ε α β : Type} (p : Nat)
    (w : StdFunction σ ε α β) (ys : List (StdFunction σ ε α β))
    (hw : w.target = some p) (hys : ∀ y ∈ ys, y.target ≠ some p) :
    removeLastMatch p (w :: ys) = some ys := by
  simp [removeLastMatch, removeLastMatch_of_no_match p ys hys, hw]

lemma invokeFrom_ne_invocationException {σ ε α β : Type} (a : α)
    (w : StdFunction σ ε α β) (ws : List (StdFunction σ ε α β)) (s : σ)
    (msg : String) (s' : σ) :
    invokeFrom a w ws s ≠ .error (.invocationException msg, s') := by
  induction ws generalizing w s with
  | nil =>
    cases h : w.run a s with
    | ok r => simp [invokeFrom, h]
    | error es => cases es with | mk e s2 => simp [invokeFrom, h]
  | cons w2 ws ih =>
    cases h : w.run a s with
    | ok r =>
      cases r with
      | mk s2 b => simpa [invokeFrom, h] using ih w2 s2
    | error es => cases es with | mk e s2 => simp [invokeFrom, h]

lemma invokeFrom_throwFn {σ ε α β : Type} (e : ε) (a : α)
    (post : List (StdFunction σ ε α β)) (s : σ) :
    invokeFrom a (throwFn e) post s = .error (.wrapperError e, s) := by
  cases post <;> rfl

lemma invokeFrom_traces_throw {α β ε : Type} (e : ε) (i : Nat) (f : α → β)
    (pre : List (Nat × (α → β)))
    (post : List (StdFunction (List (Nat × α)) ε α β)) (a : α)
    (s : List (Nat × α)) :
    invokeFrom a (traceFn i f)
        ((pre.map fun p => traceFn p.1 p.2) ++ throwFn e :: post) s
      = .error (.wrapperError e, s ++ (i, a) :: pre.map fun p => (p.1, a)) := by
  induction pre generalizing i f s with
  | nil =>
    have step : invokeFrom (ε := ε) a (traceFn i f) (throwFn e :: post) s
        = invokeFrom a (throwFn e) post (s ++ [(i, a)]) := rfl
    simp [step, invokeFrom_throwFn]
  | cons q pre ih =>
    have step : invokeFrom (ε := ε) a (traceFn i f)
        (((q :: pre).map fun p => traceFn p.1 p.2) ++ throwFn e :: post) s
          = invokeFrom a (traceFn q.1 q.2)
              ((pre.map fun p => traceFn p.1 p.2) ++ throwFn e :: post)
              (s ++ [(i, a)]) := rfl
    rw [step, ih q.1 q.2]
    simp

lemma delegate_eq_of_list_eq {σ ε α β : Type} {d e : Delegate σ ε α β}
    (h : d.m_invokationList = e.m_invokationList) : d = e := by
  cases d with
  | mk l1 =>
    cases e with
    | mk l2 => cases h; rfl

lemma combine_eq_append {σ ε α β : Type} (a b : Delegate σ ε α β) :
    (a.combine b).m_invokationList
      = a.m_invokationList ++ b.m_invokationList := by
  show (((⟨[]⟩ : Delegate σ ε α β).addDelegate a).addDelegate b).m_invokationList = _
  rw [addDelegate_eq_append, addDelegate_eq_append]
  simp

/-- The universe of C++ types, as far as the callable-detection trait
distinguishes them: function types, raw function-pointer types, primitive
(non-class) types, and class/struct types that either do or do not declare
their own `operator()`. -/
inductive CppType where
  | functionType
  | functionPointer
  | primitive
  | classType (hasCallOperator : Bool)

/-- `std::is_class_v` over the modelled universe of types. -/
def is_class : CppType → Bool
  | .classType _ => true
  | _ => false

/-- Whether a class type declares its own call operator; `false` on non-class
types (where the question does not arise). -/
def declaresCallOperator : CppType → Bool
  | .classType h => h
  | _ => false

/-- `sizeof(success)` where `using success = char(&)[1]`. -/
def success_size : Nat := 1

/-- `sizeof(fail)` where `using fail = char(&)[2]`. -/
def fail_size : Nat := 2

/-- Overload resolution of `test<Derived>(0)` in `_my_is_callable_impl<T>`:
the `Check<void (Fallback::*)(), &C::operator()>*` overload (returning `fail`)
is viable exactly when `&Derived::operator()` unambiguously names the
`Fallback` operator, i.e. when `T` declares no call operator of its own;
when `T` does declare one the reference is ambiguous, that overload is
discarded by substitution failure, and the variadic overload (returning
`success`) is chosen. -/
def test_size (hasCallOp : Bool) : Nat :=
  if hasCallOp then success_size else fail_size

/-- `_my_is_callable_impl<T>::value`:
`sizeof(test<Derived>(0)) == sizeof(success)`. -/
def my_is_callable_impl_value (hasCallOp : Bool) : Bool :=
  test_size hasCallOp == success_size

/-- `is_callable<T>`, i.e.
`std::conditional<std::is_class_v<T>, _my_is_callable_impl<T>, std::false_type>::type`:
for class types the SFINAE detector's value, for every other type `false`. -/
def is_callable (t : CppType) : Bool :=
  if is_class t then my_is_callable_impl_value (declaresCallOperator t)
  else false

/-- Moving out of a `std::vector`: the destination receives the elements and
the source vector is left empty. -/
def vectorMove {τ : Type} (src : List τ) : List τ × List τ :=
  (src, [])

/-- `Delegate(Delegate&& other)`:
`this->m_invokationList = std::move(other.m_invokationList)`; the pair is
(the new object, what is left of the source). -/
def Delegate.moveConstruct (other : Delegate σ ε α β) :
    Delegate σ ε α β × Delegate σ ε α β :=
  (⟨(vectorMove other.m_invokationList).1⟩,
   ⟨(vectorMove other.m_invokationList).2⟩)

/-- `Delegate::operator=(Delegate&& other)`: objects are identified by their
address (a `Nat`) in a heap of delegates; when `this != &other` the
destination receives the moved list and the source is left empty, and the
self-assignment guard makes `this == &other` a no-op. -/
def Delegate.moveAssign (heap : Nat → Delegate σ ε α β)
    (thisAddr otherAddr : Nat) : Nat → Delegate σ ε α β :=
  if thisAddr = otherAddr then heap
  else fun addr =>
    if addr = thisAddr then ⟨(vectorMove (heap otherAddr).m_invokationList).1⟩
    else if addr = otherAddr then
      ⟨(vectorMove (heap otherAddr).m_invokationList).2⟩
    else heap addr

/-- A concrete pointer-origin wrapper on `Nat` inputs, used as sample data. -/
def ptrWrapper (n : Nat) : StdFunction Unit Unit Nat Nat :=
  StdFunction.ofFnPtr n fun a => a + n

/-- A concrete closure-origin wrapper (`target = none`), used as sample
data. -/
def closureWrapper : StdFunction Unit Unit Nat Nat :=
  ⟨fun a s => .ok (s, a), none⟩

/-- A concrete two-object heap for the move-assignment model. -/
def heapTwo : Nat → Delegate Unit Unit Nat Nat := fun n =>
  if n = 0 then ⟨[ptrWrapper 1]⟩ else ⟨[]⟩

/-- C1: on a delegate with a non-empty invocation list (an instrumented head
wrapper `(i, f)` followed by the instrumented wrappers of `l`), `invoke`
calls every wrapper exactly once, in insertion order, passing each the
identical argument `a` — the trace grows by exactly one event per wrapper,
in list order, each carrying `a` — and the value returned is the result of
the last wrapper invoked, the results of all earlier wrappers being
discarded. -/
theorem delegate_invoke_calls_in_order {α β ε : Type} (i : Nat) (f : α → β)
    (l : List (Nat × (α → β))) (a : α) (s : List (Nat × α)) :
    (traceDelegate (ε := ε) ((i, f) :: l)).invoke a s
      = .ok (s ++ (i, a) :: l.map (fun p => (p.1, a)),
             (l.getLastD (i, f)).2 a) := by
  show invokeFrom a (traceFn i f) (l.map fun p => traceFn p.1 p.2) s = _
  exact invokeFrom_traceFn i f l a s

/-- C2: `invoke` raises `DelegateInvocationException` exactly when the
invocation list is empty at the moment of the call, and then with the world
state untouched (no partial side effects); on a non-empty list that
exception is never raised.  All other operations are total by construction
(they are plain functions into `Delegate`, not `Except`). -/
theorem delegate_invocation_error_iff_empty {σ ε α β : Type}
    (d : Delegate σ ε α β) (a : α) (s : σ) :
    (d.is_null = true
        ∧ d.invoke a s
            = .error (.invocationException "Failed to invoke delegate", s))
    ∨ (d.is_null = false
        ∧ ∀ (msg : String) (s' : σ),
            d.invoke a s ≠ .error (.invocationException msg, s')) := by
  cases h : d.m_invokationList with
  | nil =>
    left
    constructor
    · simp [Delegate.is_null, h]
    · simp [Delegate.invoke, h]
  | cons w ws =>
    right
    constructor
    · simp [Delegate.is_null, h]
    · intro msg s'
      simpa [Delegate.invoke, h] using
        invokeFrom_ne_invocationException a w ws s msg s'

/-- C3: when the invocation list is `xs ++ w :: ys` with `w` a
pointer-origin wrapper for `p` and no wrapper of `ys` (the later-inserted
entries) matching `p`, `remove p` removes exactly that last-inserted
matching occurrence `w` and leaves every other element in place, in their
relative order — the backward scan stops at its first match. -/
theorem delegate_remove_last_occurrence {σ ε α β : Type}
    (xs ys : List (StdFunction σ ε α β)) (w : StdFunction σ ε α β) (p : Nat)
    (hw : w.target = some p) (hys : ∀ y ∈ ys, y.target ≠ some p) :
    (Delegate.mk (xs ++ w :: ys) : Delegate σ ε α β).remove p
      = ⟨xs ++ ys⟩ := by
  have h1 := removeLastMatch_cons_match p w ys hw hys
  have h2 := removeLastMatch_append_some p xs (w :: ys) ys h1
  have hnull :
      (Delegate.mk (xs ++ w :: ys) : Delegate σ ε α β).is_null = false := by
    simp [Delegate.is_null]
  simp [Delegate.remove, hnull, h2]

/-- Witness for C3 at a concrete input: of the two pointer-origin wrappers
for pointer 5, only the later one is removed; the closure wrapper stays. -/
theorem delegate_remove_last_occurrence_witness :
    (Delegate.mk [ptrWrapper 5, ptrWrapper 5, closureWrapper]
        : Delegate Unit Unit Nat Nat).remove 5
      = ⟨[ptrWrapper 5, closureWrapper]⟩ :=
  delegate_remove_last_occurrence [ptrWrapper 5] [closureWrapper]
    (ptrWrapper 5) 5 rfl
    (by
      intro y hy
      rw [List.mem_singleton] at hy
      subst hy
      simp [closureWrapper])

/-- C4: `operator+` produces a new delegate whose invocation list is the
left operand's list followed by the right operand's list (the operands,
being separate values, are left as they are); invoking the sum runs the
left operand's wrappers and then the right operand's, in order. -/
theorem delegate_combine_concat :
    (∀ (σ ε α β : Type) (a b : Delegate σ ε α β),
        (a.combine b).m_invokationList
          = a.m_invokationList ++ b.m_invokationList)
    ∧ (∀ (ε α β : Type) (i : Nat) (f : α → β)
          (la lb : List (Nat × (α → β))) (x : α) (s : List (Nat × α)),
        ((traceDelegate (ε := ε) ((i, f) :: la)).combine
            (traceDelegate lb)).invoke x s
          = .ok (s ++ (i, x) :: (la ++ lb).map (fun p => (p.1, x)),
                 ((la ++ lb).getLastD (i, f)).2 x)) := by
  constructor
  · intro σ ε α β a b
    exact combine_eq_append a b
  · intro ε α β i f la lb x s
    have hd : (traceDelegate (ε := ε) ((i, f) :: la)).combine
        (traceDelegate lb) = traceDelegate ((i, f) :: (la ++ lb)) := by
      apply delegate_eq_of_list_eq
      rw [combine_eq_append]
      simp [traceDelegate]
    rw [hd]
    show invokeFrom x (traceFn i f)
        ((la ++ lb).map fun p => traceFn p.1 p.2) s = _
    exact invokeFrom_traceFn i f (la ++ lb) x s

/-- C5: the callable-detection trait classifies a free-function type as
`false`, a primitive type as `false`, a class type declaring its own call
operator as `true`, a class type with no call operator as `false`, and
every non-class type as `false` regardless of invokability. -/
theorem is_callable_classification :
    is_callable .functionType = false
    ∧ is_callable .primitive = false
    ∧ is_callable (.classType true) = true
    ∧ is_callable (.classType false) = false
    ∧ ∀ t : CppType, is_class t = false → is_callable t = false := by
  refine ⟨rfl, rfl, rfl, rfl, ?_⟩
  intro t h
  cases t <;> simp_all [is_callable, is_class]

/-- Witness for C5 at a concrete input: a raw function-pointer type is not a
class, hence classified not callable. -/
theorem is_callable_classification_witness :
    is_callable .functionPointer = false :=
  is_callable_classification.2.2.2.2 .functionPointer rfl

/-- C6: move-construction transfers the source's invocation list and leaves
the source empty; move-assignment between distinct objects does the same
(touching no other object), and move self-assignment is a no-op that leaves
the whole heap — in particular the delegate's own invocation list —
unchanged. -/
theorem delegate_move_semantics :
    (∀ (σ ε α β : Type) (other : Delegate σ ε α β),
        Delegate.moveConstruct other = (other, ⟨[]⟩))
    ∧ (∀ (σ ε α β : Type) (heap : Nat → Delegate σ ε α β) (t o : Nat),
        t ≠ o →
          Delegate.moveAssign heap t o t = heap o
          ∧ Delegate.moveAssign heap t o o = ⟨[]⟩
          ∧ ∀ x, x ≠ t → x ≠ o → Delegate.moveAssign heap t o x = heap x)
    ∧ (∀ (σ ε α β : Type) (heap : Nat → Delegate σ ε α β) (t : Nat),
        Delegate.moveAssign heap t t = heap) := by
  refine ⟨?_, ?_, ?_⟩
  · intro σ ε α β other
    rfl
  · intro σ ε α β heap t o h
    refine ⟨?_, ?_, ?_⟩
    · simp [Delegate.moveAssign, vectorMove, h]
    · simp [Delegate.moveAssign, vectorMove, h, Ne.symm h]
    · intro x hxt hxo
      simp [Delegate.moveAssign, vectorMove, h, hxt, hxo]
  · intro σ ε α β heap t
    simp [Delegate.moveAssign]

/-- Witness for C6 at a concrete input: moving object 0 of `heapTwo` into
object 1 gives object 1 the old list of object 0 and empties object 0. -/
theorem delegate_move_semantics_witness :
    Delegate.moveAssign heapTwo 1 0 1 = heapTwo 0
    ∧ Delegate.moveAssign heapTwo 1 0 0 = ⟨[]⟩ :=
  ⟨(delegate_move_semantics.2.1 Unit Unit Nat Nat heapTwo 1 0
      (by decide)).1,
   (delegate_move_semantics.2.1 Unit Unit Nat Nat heapTwo 1 0
      (by decide)).2.1⟩

/-- C7: `invoke` never mutates the invocation list — the method returns its
object unchanged for every delegate, argument and state — and when a wrapper
invoked mid-list raises an error, that error propagates immediately to the
caller with exactly the earlier wrappers' side effects performed: the trace
records the wrappers before the throwing one, and none after it. -/
theorem delegate_invoke_frame_and_propagation :
    (∀ (σ ε α β : Type) (d : Delegate σ ε α β) (a : α) (s : σ),
        (d.invokeMethod a s).1 = d)
    ∧ (∀ (ε α β : Type) (e : ε) (pre : List (Nat × (α → β)))
          (post : List (StdFunction (List (Nat × α)) ε α β)) (a : α)
          (s : List (Nat × α)),
        (Delegate.mk ((pre.map fun p => traceFn p.1 p.2) ++ throwFn e :: post)
            : Delegate (List (Nat × α)) ε α β).invoke a s
          = .error (.wrapperError e, s ++ pre.map fun p => (p.1, a))) := by
  constructor
  · intro σ ε α β d a s
    rfl
  · intro ε α β e pre post a s
    cases pre with
    | nil =>
      show invokeFrom a (throwFn e) post s = _
      simp [invokeFrom_throwFn]
    | cons q pre =>
      show invokeFrom a (traceFn q.1 q.2)
          ((pre.map fun p => traceFn p.1 p.2) ++ throwFn e :: post) s = _
      rw [invokeFrom_traces_throw]
      simp

/-- C8: `remove p` has no effect (and raises nothing) whenever no wrapper of
the invocation list is of plain-function-pointer origin with pointer `p` —
in particular when the behaviour was registered through a closure, bound
expression or function object, whose wrappers carry `target = none`. -/
theorem delegate_remove_noop {σ ε α β : Type} (d : Delegate σ ε α β)
    (p : Nat) (h : ∀ w ∈ d.m_invokationList, w.target ≠ some p) :
    d.remove p = d := by
  have hm := removeLastMatch_of_no_match p d.m_invokationList h
  cases hn : d.is_null with
  | false => simp [Delegate.remove, hn, hm]
  | true => simp [Delegate.remove, hn]

/-- Witness for C8 at a concrete input: a list holding a closure wrapper and
a pointer wrapper for 3 is untouched by removing pointer 7. -/
theorem delegate_remove_noop_witness :
    (Delegate.mk [closureWrapper, ptrWrapper 3]
        : Delegate Unit Unit Nat Nat).remove 7
      = ⟨[closureWrapper, ptrWrapper 3]⟩ :=
  delegate_remove_noop ⟨[closureWrapper, ptrWrapper 3]⟩ 7
    (by
      intro w hw
      rcases List.mem_cons.mp hw with h1 | h2
      · subst h1
        simp [closureWrapper]
      · rw [List.mem_singleton] at h2
        subst h2
        simp [ptrWrapper, StdFunction.ofFnPtr])

/-- C9: assigning a single callable discards the current invocation list and
replaces it with the one-element list holding exactly that callable; in
particular, reassigning any delegate to the plain function
`fun (a, b) => a + b` and invoking it with `(1, 2)` yields `3`. -/
theorem delegate_assign_single :
    (∀ (σ ε α β : Type) (d : Delegate σ ε α β) (f : StdFunction σ ε α β),
        d.assignFunction f = ⟨[f]⟩)
    ∧ (∀ d0 : Delegate Unit Unit (Nat × Nat) Nat,
        (d0.assignFunction
            (StdFunction.ofFnPtr 0 fun q : Nat × Nat => q.1 + q.2)).invoke
          (1, 2) () = .ok ((), 3)) := by
  constructor
  · intro σ ε α β d f
    rfl
  · intro d0
    rfl

/-- C10: `add f` followed by `remove f`, for a pointer-origin wrapper with
pointer `p`, restores the invocation list exactly — the backward scan finds
the just-appended wrapper first — whether or not `p` already occurred in the
list. -/
theorem delegate_add_remove_roundtrip {σ ε α β : Type}
    (d : Delegate σ ε α β) (w : StdFunction σ ε α β) (p : Nat)
    (h : w.target = some p) :
    (d.add w).remove p = d := by
  have h0 : removeLastMatch (σ := σ) (ε := ε) p [w] = some [] := by
    simp [removeLastMatch, h]
  have h1 : removeLastMatch p (d.m_invokationList ++ [w])
      = some d.m_invokationList := by
    simpa using removeLastMatch_append_some p d.m_invokationList [w] [] h0
  have hnull : (Delegate.mk (d.m_invokationList ++ [w])
      : Delegate σ ε α β).is_null = false := by
    simp [Delegate.is_null]
  simp [Delegate.remove, Delegate.add, hnull, h1]

/-- Witness for C10 at a concrete input: a delegate already containing the
pointer wrapper for 2 is restored by adding and then removing pointer 2. -/
theorem delegate_add_remove_roundtrip_witness :
    ((Delegate.mk [ptrWrapper 2] : Delegate Unit Unit Nat Nat).add
        (ptrWrapper 2)).remove 2
      = ⟨[ptrWrapper 2]⟩ :=
  delegate_add_remove_roundtrip ⟨[ptrWrapper 2]⟩ (ptrWrapper 2) 2 rfl
